import Mathlib

/-!
Verification of the catan-chambers scorekeeping core.

The definitions below are shallow embeddings of the derivation logic of the
repository:

* `statsOnInsert` / `statsOnDelete` embed the two branches of the PostgreSQL
  trigger function `update_tournament_player_stats` (migration
  `003`, trigger `on_game_score_change` on `game_scores`), which maintains the
  per-(tournament, player) row of `tournament_player_stats`.
* `getWinner` / `handleSubmit` embed the validation and insertion logic of
  `GameEntryForm.tsx` (`getWinner`, `handleSubmit`).
* `calculateLoseChance` embeds the risk heuristic of `Leaderboard.tsx`
  (`calculateLoseChance`), with JS floating point replaced by exact rational
  arithmetic and `Math.round` by `jround` (floor of x + 1/2, the JS rounding
  rule for nonnegative halves).
* `sortedStandings` embeds the `sortedPlayers` stable sort of `Leaderboard.tsx`
  (comparator `b.total_points - a.total_points || b.wins - a.wins`); JS array
  sort is stable, and `List.insertionSort` is the stable sort used here.
* `prevPointsByPlayer` / `fetchComparisonData` embed the cross-season
  comparison of `Leaderboard.tsx` (`fetchComparisonData`): the previous
  season's games are taken in ascending game-number order limited to the
  current season's game count, and per-player points are summed over the
  scores of exactly those games.
* `argmaxTop` / `argminBottom` / `cumulativePoints` / `gamesAtTop` /
  `gamesAtBottom` embed the positional aggregator of `StatsPage.tsx`
  (`getMostGamesAtTop`, `getMostGamesAtBottom`): games are replayed in
  ascending game-number order, cumulative totals are computed per player at
  each checkpoint, and the JS `reduce` over the player-keyed record (whose
  key order is roster insertion order) is embedded as a left fold over the
  roster list.

Identifiers (uuids in the database) are embedded as `Nat`; points and
aggregate counters as `Int` (the database columns are integers and the SQL
`GREATEST(0, ...)` clamps live on integers).
-/

namespace CatanChambers

/-- Per-(tournament, player) aggregate row of `tournament_player_stats`. -/
structure PlayerStats where
  total_games : Int
  wins : Int
  total_points : Int
  longest_road_count : Int
  largest_army_count : Int
  win_streak : Int
  best_win_streak : Int
deriving DecidableEq, Repr

/-- The zero-valued standing a player starts from. -/
def zeroStats : PlayerStats := ⟨0, 0, 0, 0, 0, 0, 0⟩

/-- A `game_scores` row: one player's score in one game. -/
structure GameScore where
  game_id : Nat
  player_id : Nat
  points : Int
  longest_road : Bool
  largest_army : Bool
deriving DecidableEq, Repr

/-- The `TG_OP = INSERT` branch of `update_tournament_player_stats`: fold one
new score row (with the containing game's winner) into the player's stats. -/
def statsOnInsert (winner_id : Nat) (row : GameScore) (st : PlayerStats) : PlayerStats :=
  { total_games := st.total_games + 1
    wins := st.wins + (if winner_id = row.player_id then 1 else 0)
    total_points := st.total_points + row.points
    longest_road_count := st.longest_road_count + (if row.longest_road then 1 else 0)
    largest_army_count := st.largest_army_count + (if row.largest_army then 1 else 0)
    win_streak := if winner_id = row.player_id then st.win_streak + 1 else 0
    best_win_streak :=
      max st.best_win_streak
        (if winner_id = row.player_id then st.win_streak + 1 else st.best_win_streak) }

/-- The `TG_OP = DELETE` branch of `update_tournament_player_stats`: decrement
counters with `GREATEST(0, ...)` clamps. The DELETE path only runs
`SELECT tournament_id INTO v_tournament_id`, so `v_winner_id` is never
assigned and stays NULL; the SQL `CASE WHEN v_winner_id = OLD.player_id`
therefore never takes its THEN arm (NULL comparison), so `wins` is only
clamped, never decremented, and the streak columns are not touched at all. -/
def statsOnDelete (row : GameScore) (st : PlayerStats) : PlayerStats :=
  { total_games := max 0 (st.total_games - 1)
    wins := max 0 st.wins
    total_points := max 0 (st.total_points - row.points)
    longest_road_count :=
      max 0 (st.longest_road_count - (if row.longest_road then 1 else 0))
    largest_army_count :=
      max 0 (st.largest_army_count - (if row.largest_army then 1 else 0))
    win_streak := st.win_streak
    best_win_streak := st.best_win_streak }

/-- Replay a player's score rows (each paired with that game's winner id) in
ascending game-number order through the insert branch of the trigger,
starting from the zero standing. -/
def replayStats (history : List (Nat × GameScore)) : PlayerStats :=
  history.foldl (fun st g => statsOnInsert g.1 g.2 st) zeroStats

/-- Modelled from the spec: the win flags of a replay history, in order. -/
def wonFlags (history : List (Nat × GameScore)) : List Bool :=
  history.map (fun g => decide (g.1 = g.2.player_id))

/-- Modelled from the spec: the length of the consecutive run of wins ending
at the most recently played game (reset to 0 by any non-win). -/
def trailingWinStreak (flags : List Bool) : Nat :=
  (flags.reverse.takeWhile id).length

/-- The C1 failing input: a single winning score row (10 points, no
achievement flags) for player 1, inserted into and then deleted from the
zero standing. -/
def c1Row : GameScore := ⟨1, 1, 10, false, false⟩

/-- The C6 scenario: a 7-game season for player 1 with wins at games 3, 4, 5
and 7 and losses (winner 2) at games 1, 2 and 6. -/
def c6History : List (Nat × GameScore) :=
  [ (2, ⟨1, 1, 6, false, false⟩),
    (2, ⟨2, 1, 7, false, false⟩),
    (1, ⟨3, 1, 10, false, false⟩),
    (1, ⟨4, 1, 10, false, false⟩),
    (1, ⟨5, 1, 10, false, false⟩),
    (2, ⟨6, 1, 5, false, false⟩),
    (1, ⟨7, 1, 10, false, false⟩) ]

/-- One player's submitted score in the game-entry form. -/
structure PlayerScore where
  playerId : Nat
  points : Int
  longestRoad : Bool
  largestArmy : Bool
deriving DecidableEq, Repr

/-- `getWinner` of `GameEntryForm.tsx`: the first submitted score with at
least 10 points, if any. -/
def getWinner (scores : List PlayerScore) : Option Nat :=
  (scores.find? (fun s => decide ((10 : Int) ≤ s.points))).map (fun s => s.playerId)

/-- A recorded game: the winner reference plus its per-player score rows. -/
structure RecordedGame where
  winner_id : Nat
  scores : List PlayerScore
deriving DecidableEq, Repr

/-- Outcome of a record-game submission: a structured error, or the new list
of recorded games of the tournament. -/
inductive SubmitResult where
  | rejected (msg : String)
  | accepted (games : List RecordedGame)
deriving DecidableEq, Repr

/-- `handleSubmit` of `GameEntryForm.tsx`: reject when no score reaches 10
points; reject when the tournament already holds `total_games` games;
otherwise append the game (winner plus all score rows) atomically. -/
def handleSubmit (total_games : Nat) (games : List RecordedGame)
    (scores : List PlayerScore) : SubmitResult :=
  match getWinner scores with
  | none => .rejected "Someone must reach 10 points to win!"
  | some winnerId =>
    if total_games ≤ games.length then
      .rejected "Tournament is complete! Create a new tournament to continue."
    else
      .accepted (games ++ [{ winner_id := winnerId, scores := scores }])

/-- JS `Math.round` on the (nonnegative) values produced here: floor of
x + 1/2. -/
def jround (x : ℚ) : Int := ⌊x + 1 / 2⌋

/-- `calculateLoseChance` of `Leaderboard.tsx`. Arguments mirror the data the
closure reads: the tournament's configured game count (`0` stands for the
absent/falsy value that `|| 20` replaces), games played so far, the number of
players, this player's total points, the last-place player's total points
(`sortedPlayers[numPlayers - 1]`), and this player's 1-based rank. -/
def calculateLoseChance (total_games gamesPlayed numPlayers : Nat)
    (myPoints lastPlacePoints : Int) (playerRank : Nat) : Int :=
  let totalGamesInTournament : Nat := if total_games = 0 then 20 else total_games
  let remainingGames : Int := (totalGamesInTournament : Int) - (gamesPlayed : Int)
  if gamesPlayed = 0 ∨ numPlayers = 0 then
    jround (100 / (max numPlayers 1 : ℚ))
  else if remainingGames ≤ 0 then
    (if playerRank = numPlayers then 100 else 0)
  else
    let gapFromLast : ℚ := (myPoints : ℚ) - (lastPlacePoints : ℚ)
    let avgSwingPerGame : ℚ := 7 / 2
    let totalPotentialSwing : ℚ := (remainingGames : ℚ) * avgSwingPerGame
    let safetyMargin : ℚ := min (gapFromLast / max totalPotentialSwing 1) 1
    let maxLoseChance : ℚ := 65
    let minLoseChance : ℚ := 8
    let baseChance : ℚ := maxLoseChance - safetyMargin * (maxLoseChance - minLoseChance)
    let positionPenalty : ℚ :=
      (((playerRank : ℚ) - 1) / max ((numPlayers : ℚ) - 1) 1) * 8
    let withPenalty : ℚ := baseChance + positionPenalty
    let progressRatio : ℚ := (gamesPlayed : ℚ) / (totalGamesInTournament : ℚ)
    let confidenceFactor : ℚ := min (progressRatio * (3 / 2)) 1
    let equalChance : ℚ := 100 / (numPlayers : ℚ)
    let adjustedChance : ℚ := equalChance + (withPenalty - equalChance) * confidenceFactor
    jround (min 90 (max 5 adjustedChance))

/-- A leaderboard entry: player identity with the two stats the standings
comparator reads. -/
structure RankedPlayer where
  id : Nat
  total_points : Int
  wins : Int
deriving DecidableEq, Repr

/-- The `sortedPlayers` order of `Leaderboard.tsx`: `a` may stay before `b`
exactly when the comparator `b.total_points - a.total_points ||
b.wins - a.wins` is nonpositive. -/
def standingsLe (a b : RankedPlayer) : Prop :=
  b.total_points < a.total_points ∨
    (b.total_points = a.total_points ∧ b.wins ≤ a.wins)

instance : DecidableRel standingsLe := fun a b => by
  unfold standingsLe; infer_instance

instance : IsTotal RankedPlayer standingsLe :=
  ⟨by intro a b; unfold standingsLe; omega⟩

instance : IsTrans RankedPlayer standingsLe :=
  ⟨by intro a b c; unfold standingsLe; omega⟩

/-- `sortedPlayers` of `Leaderboard.tsx`: players sorted by total points
descending, ties by wins descending; a stable sort, as JS array sort is. -/
def sortedStandings (players : List RankedPlayer) : List RankedPlayer :=
  List.insertionSort standingsLe players

/-- `sortedPlayers[numPlayers - 1]?.stats.total_points || 0`: the last-place
player's points, or 0 when there are no players. -/
def lastPlacePoints (players : List RankedPlayer) : Int :=
  match (sortedStandings players).getLast? with
  | some p => p.total_points
  | none => 0

/-- A `games` row (fields the core reads; ids are unique, game numbers are
unique within the tournament). -/
structure Game where
  id : Nat
  game_number : Nat
  winner_id : Nat
deriving DecidableEq, Repr

/-- Ascending `game_number` order (`.order('game_number', ascending: true)`). -/
def gameNumberLe (a b : Game) : Prop := a.game_number ≤ b.game_number

instance : DecidableRel gameNumberLe := fun a b => by
  unfold gameNumberLe; infer_instance

instance : IsTotal Game gameNumberLe :=
  ⟨fun a b => Nat.le_total a.game_number b.game_number⟩

instance : IsTrans Game gameNumberLe :=
  ⟨fun _ _ _ => Nat.le_trans⟩

/-- A tournament's games in ascending game-number order. -/
def sortGamesByNumber (games : List Game) : List Game :=
  List.insertionSort gameNumberLe games

/-- `fetchComparisonData` of `Leaderboard.tsx`: the ids of the previous
season's first `N` games in ascending game-number order (`limit(N)`). -/
def prevGameIds (N : Nat) (prevGames : List Game) : List Nat :=
  ((sortGamesByNumber prevGames).take N).map (fun g => g.id)

/-- The previous-season cumulative points of one player: the sum of that
player's points over the score rows of the selected previous-season games. -/
def prevPointsByPlayer (N : Nat) (prevGames : List Game) (scores : List GameScore)
    (pid : Nat) : Int :=
  (((scores.filter (fun s => decide (s.game_id ∈ prevGameIds N prevGames))).filter
      (fun s => decide (s.player_id = pid))).map (fun s => s.points)).sum

/-- One row of the season-comparison table. -/
structure ComparisonData where
  playerId : Nat
  currentPoints : Int
  previousPoints : Int
  difference : Int
deriving DecidableEq, Repr

/-- `fetchComparisonData` of `Leaderboard.tsx`: no comparison when no games
were played yet or the previous season has no games in range; otherwise one
row per player with current points, previous points and their difference. -/
def fetchComparisonData (N : Nat) (prevGames : List Game) (scores : List GameScore)
    (players : List Nat) (currentPoints : Nat → Int) : Option (List ComparisonData) :=
  if N = 0 then none
  else if prevGameIds N prevGames = [] then none
  else some (players.map (fun pid =>
    { playerId := pid
      currentPoints := currentPoints pid
      previousPoints := prevPointsByPlayer N prevGames scores pid
      difference := currentPoints pid - prevPointsByPlayer N prevGames scores pid }))

/-- Modelled from the spec: a player's previous-season total summed over all
recorded previous-season games whose game number is at most `N`. -/
def specPrevPoints (N : Nat) (prevGames : List Game) (scores : List GameScore)
    (pid : Nat) : Int :=
  (((scores.filter (fun s =>
      decide (s.game_id ∈ (prevGames.filter (fun g => decide (g.game_number ≤ N))).map
        (fun g => g.id)))).filter
      (fun s => decide (s.player_id = pid))).map (fun s => s.points)).sum

/-- The JS `reduce` of `getMostGamesAtTop`: over the player keys in roster
order, keep the incumbent unless the candidate's cumulative total is strictly
greater. `none` only for an empty roster (the source guards on nonempty
keys). -/
def argmaxTop (cum : Nat → Int) : List Nat → Option Nat
  | [] => none
  | p :: rest =>
    some (rest.foldl (fun prev cur => if cum prev < cum cur then cur else prev) p)

/-- The JS `reduce` of `getMostGamesAtBottom`: keep the incumbent unless the
candidate's cumulative total is strictly smaller. -/
def argminBottom (cum : Nat → Int) : List Nat → Option Nat
  | [] => none
  | p :: rest =>
    some (rest.foldl (fun prev cur => if cum cur < cum prev then cur else prev) p)

/-- Modelled from the spec (the explicit deterministic tie-break rule): the
first player in roster order attaining the maximum cumulative total. -/
def firstMax (cum : Nat → Int) : List Nat → Option Nat
  | [] => none
  | p :: rest =>
    match firstMax cum rest with
    | none => some p
    | some q => some (if cum p < cum q then q else p)

/-- Modelled from the spec: the first player in roster order attaining the
minimum cumulative total. -/
def firstMin (cum : Nat → Int) : List Nat → Option Nat
  | [] => none
  | p :: rest =>
    match firstMin cum rest with
    | none => some p
    | some q => some (if cum q < cum p then q else p)

/-- The cumulative total of one player over a checkpoint prefix of games: for
each game, the points of the first matching score row, or 0 when none
matches (`gameScores.find(...)`). -/
def cumulativePoints (scores : List GameScore) (pre : List Game) (pid : Nat) : Int :=
  (pre.map (fun g =>
    match scores.find? (fun s => decide (s.game_id = g.id) && decide (s.player_id = pid)) with
    | some s => s.points
    | none => 0)).sum

/-- The checkpoint prefixes of a tournament: for each index `i` of the games
in ascending game-number order, the games up to and including index `i`. -/
def checkpoints (games : List Game) : List (List Game) :=
  (List.range (sortGamesByNumber games).length).map
    (fun i => (sortGamesByNumber games).take (i + 1))

/-- `getMostGamesAtTop` of `StatsPage.tsx` (the counting core, before the
display sort): for each roster player, the number of checkpoints at which
the reduce over cumulative totals picks that player. -/
def gamesAtTop (players : List Nat) (games : List Game) (scores : List GameScore) :
    List (Nat × Nat) :=
  players.map (fun pid =>
    (pid, (checkpoints games).countP
      (fun pre => decide (argmaxTop (cumulativePoints scores pre) players = some pid))))

/-- `getMostGamesAtBottom` of `StatsPage.tsx` (the counting core, before the
display sort). -/
def gamesAtBottom (players : List Nat) (games : List Game) (scores : List GameScore) :
    List (Nat × Nat) :=
  players.map (fun pid =>
    (pid, (checkpoints games).countP
      (fun pre => decide (argminBottom (cumulativePoints scores pre) players = some pid))))

/-- The C2 counterexample submission: two players reach the 10-point
threshold (10 and 11 points); the later one even has the higher score. -/
def c2Scores : List PlayerScore :=
  [⟨1, 10, false, false⟩, ⟨2, 11, false, false⟩]

/-- A tournament that already holds two recorded games. -/
def c7Games : List RecordedGame :=
  [⟨1, [⟨1, 10, false, false⟩]⟩, ⟨1, [⟨1, 10, false, false⟩]⟩]

/-- A valid score set submitted against a full tournament. -/
def c7Scores : List PlayerScore := [⟨1, 10, false, false⟩]

/-- A four-player standing snapshot: 40, 30, 20 and 10 points. -/
def c4Players : List RankedPlayer :=
  [⟨1, 40, 4⟩, ⟨2, 30, 1⟩, ⟨3, 20, 0⟩, ⟨4, 10, 0⟩]

/-- A previous season with only six recorded games (numbers 1..6). -/
def c8Games : List Game :=
  [⟨101, 1, 1⟩, ⟨102, 2, 2⟩, ⟨103, 3, 1⟩, ⟨104, 4, 2⟩, ⟨105, 5, 1⟩, ⟨106, 6, 2⟩]

/-- Score rows of that previous season for player 1. -/
def c8Scores : List GameScore :=
  [⟨101, 1, 8, false, false⟩, ⟨102, 1, 5, false, false⟩, ⟨103, 1, 10, false, false⟩]

/-- A two-player roster. -/
def c10Players : List Nat := [1, 2]

/-- Two games with ids 10 and 11. -/
def c10Games : List Game := [⟨10, 1, 1⟩, ⟨11, 2, 2⟩]

/-- Scores of those two games: player 1 leads after game 1, player 2 after
game 2. -/
def c10Scores : List GameScore :=
  [⟨10, 1, 8, false, false⟩, ⟨10, 2, 5, false, false⟩,
   ⟨11, 1, 2, false, false⟩, ⟨11, 2, 9, false, false⟩]

end CatanChambers

namespace CatanChambers

/-! Helper lemmas. -/

lemma getLast?_mem {α : Type} {l : List α} {b : α} (h : l.getLast? = some b) :
    b ∈ l := by
  obtain ⟨hne, rfl⟩ := List.mem_getLast?_eq_getLast h
  exact List.getLast_mem hne

lemma pairwise_getLast {α : Type} {R : α → α → Prop} :
    ∀ {l : List α} {b : α}, l.Pairwise R → l.getLast? = some b →
      ∀ a ∈ l, a = b ∨ R a b := by
  intro l
  induction l with
  | nil => intro b _ h; simp at h
  | cons x t ih =>
    intro b hp hl a ha
    rcases List.pairwise_cons.mp hp with ⟨hx, hp2⟩
    cases t with
    | nil =>
      simp only [List.getLast?_singleton, Option.some.injEq] at hl
      rcases List.mem_singleton.mp (by simpa using ha) with rfl
      left; exact hl
    | cons y s =>
      rw [List.getLast?_cons_cons] at hl
      rcases List.mem_cons.mp ha with rfl | ha2
      · right; exact hx b (getLast?_mem hl)
      · exact ih hp2 hl a ha2

lemma jround_clamp_bounds (x : ℚ) :
    5 ≤ jround (min 90 (max 5 x)) ∧ jround (min 90 (max 5 x)) ≤ 90 := by
  have h5 : (5 : ℚ) ≤ min 90 (max 5 x) := le_min (by norm_num) (le_max_left 5 x)
  have h90 : min (90 : ℚ) (max 5 x) ≤ 90 := min_le_left _ _
  constructor
  · exact Int.le_floor.mpr (by push_cast; linarith)
  · exact Int.lt_add_one_iff.mp (Int.floor_lt.mpr (by push_cast; linarith))

lemma replayStats_win_streak (history : List (Nat × GameScore)) :
    (replayStats history).win_streak = (trailingWinStreak (wonFlags history) : Int) := by
  induction history using List.reverseRecOn with
  | nil => decide
  | append_singleton l g ih =>
    have hfold : replayStats (l ++ [g]) = statsOnInsert g.1 g.2 (replayStats l) := by
      simp [replayStats, List.foldl_append]
    have hflags : wonFlags (l ++ [g]) = wonFlags l ++ [decide (g.1 = g.2.player_id)] := by
      simp [wonFlags]
    by_cases hw : g.1 = g.2.player_id
    · have htrail : trailingWinStreak (wonFlags (l ++ [g])) =
          trailingWinStreak (wonFlags l) + 1 := by
        rw [hflags]
        simp [trailingWinStreak, hw, List.takeWhile_cons]
      rw [hfold, htrail]
      simp [statsOnInsert, hw, ih]
    · have htrail : trailingWinStreak (wonFlags (l ++ [g])) = 0 := by
        rw [hflags]
        simp [trailingWinStreak, hw, List.takeWhile_cons]
      rw [hfold, htrail]
      simp [statsOnInsert, hw]

lemma foldl_pick_max (cum : Nat → Int) :
    ∀ (l : List Nat) (p : Nat),
      l.foldl (fun prev cur => if cum prev < cum cur then cur else prev) p =
        (match firstMax cum l with
         | none => p
         | some q => if cum p < cum q then q else p) := by
  intro l
  induction l with
  | nil => intro p; rfl
  | cons x xs ih =>
    intro p
    rw [List.foldl_cons, ih]
    cases h : firstMax cum xs with
    | none => simp [firstMax, h]
    | some q =>
      simp only [firstMax, h]
      split_ifs <;> first | rfl | omega

lemma foldl_pick_min (cum : Nat → Int) :
    ∀ (l : List Nat) (p : Nat),
      l.foldl (fun prev cur => if cum cur < cum prev then cur else prev) p =
        (match firstMin cum l with
         | none => p
         | some q => if cum q < cum p then q else p) := by
  intro l
  induction l with
  | nil => intro p; rfl
  | cons x xs ih =>
    intro p
    rw [List.foldl_cons, ih]
    cases h : firstMin cum xs with
    | none => simp [firstMin, h]
    | some q =>
      simp only [firstMin, h]
      split_ifs <;> first | rfl | omega

lemma argmaxTop_eq_firstMax (cum : Nat → Int) (l : List Nat) :
    argmaxTop cum l = firstMax cum l := by
  cases l with
  | nil => rfl
  | cons p rest =>
    rw [argmaxTop, foldl_pick_max]
    cases h : firstMax cum rest with
    | none => simp [firstMax, h]
    | some q => simp [firstMax, h]

lemma argminBottom_eq_firstMin (cum : Nat → Int) (l : List Nat) :
    argminBottom cum l = firstMin cum l := by
  cases l with
  | nil => rfl
  | cons p rest =>
    rw [argminBottom, foldl_pick_min]
    cases h : firstMin cum rest with
    | none => simp [firstMin, h]
    | some q => simp [firstMin, h]

lemma foldl_pick_mem (f : Nat → Nat → Nat) (hf : ∀ a b, f a b = a ∨ f a b = b) :
    ∀ (l : List Nat) (p : Nat), l.foldl f p = p ∨ l.foldl f p ∈ l := by
  intro l
  induction l with
  | nil => intro p; left; rfl
  | cons x xs ih =>
    intro p
    rw [List.foldl_cons]
    rcases ih (f p x) with h | h
    · rcases hf p x with h2 | h2
      · left; rw [h, h2]
      · right; rw [h, h2]; exact List.mem_cons_self x xs
    · right; exact List.mem_cons_of_mem x h

lemma sum_map_add_nat (l : List Nat) (g h : Nat → Nat) :
    (l.map (fun x => g x + h x)).sum = (l.map g).sum + (l.map h).sum := by
  induction l with
  | nil => rfl
  | cons x xs ih =>
    simp only [List.map_cons, List.sum_cons, ih]
    omega

lemma sum_map_indicator_eq_zero {l : List Nat} {a : Nat} (ha : a ∉ l) :
    (l.map (fun p => if a = p then (1 : Nat) else 0)).sum = 0 := by
  induction l with
  | nil => rfl
  | cons x xs ih =>
    have hax : a ≠ x := fun h => ha (h ▸ List.mem_cons_self x xs)
    have haxs : a ∉ xs := fun h => ha (List.mem_cons_of_mem x h)
    simp [hax, ih haxs]

lemma sum_map_indicator_eq_one {l : List Nat} (hnd : l.Nodup) {a : Nat} (ha : a ∈ l) :
    (l.map (fun p => if a = p then (1 : Nat) else 0)).sum = 1 := by
  induction l with
  | nil => simp at ha
  | cons x xs ih =>
    rcases List.nodup_cons.mp hnd with ⟨hx, hnd2⟩
    rcases List.mem_cons.mp ha with rfl | ha2
    · simp [sum_map_indicator_eq_zero hx]
    · have hax : a ≠ x := fun h => hx (h ▸ ha2)
      simp [hax, ih hnd2 ha2]

lemma sum_countP_choice (players : List Nat) (hnd : players.Nodup)
    (P : List (List Game)) (f : List Game → Option Nat)
    (hf : ∀ pre ∈ P, ∃ a, a ∈ players ∧ f pre = some a) :
    (players.map (fun pid => P.countP (fun pre => decide (f pre = some pid)))).sum =
      P.length := by
  induction P with
  | nil =>
    simp [List.countP_nil]
  | cons pre P2 ih =>
    have hterm : ∀ pid, (pre :: P2).countP (fun q => decide (f q = some pid)) =
        P2.countP (fun q => decide (f q = some pid)) +
          (if decide (f pre = some pid) = true then 1 else 0) := by
      intro pid
      rw [List.countP_cons]
    obtain ⟨a, hamem, hfa⟩ := hf pre (List.mem_cons_self pre P2)
    have hsplit :
        (players.map (fun pid => (pre :: P2).countP (fun q => decide (f q = some pid)))).sum =
          (players.map (fun pid => P2.countP (fun q => decide (f q = some pid)))).sum +
            (players.map (fun pid =>
              if decide (f pre = some pid) = true then 1 else 0)).sum := by
      calc (players.map (fun pid =>
              (pre :: P2).countP (fun q => decide (f q = some pid)))).sum
          = (players.map (fun pid =>
              P2.countP (fun q => decide (f q = some pid)) +
                (if decide (f pre = some pid) = true then 1 else 0))).sum := by
            exact congrArg List.sum (List.map_congr_left (fun pid _ => hterm pid))
        _ = _ := sum_map_add_nat players _ _
    have hone : (players.map (fun pid =>
        if decide (f pre = some pid) = true then 1 else 0)).sum = 1 := by
      have heq : ∀ pid, (if decide (f pre = some pid) = true then (1 : Nat) else 0) =
          (if a = pid then 1 else 0) := by
        intro pid
        rw [hfa]
        by_cases h : a = pid
        · simp [h]
        · simp [h, fun hc : pid = a => h hc.symm]
      calc (players.map (fun pid =>
              if decide (f pre = some pid) = true then (1 : Nat) else 0)).sum
          = (players.map (fun pid => if a = pid then (1 : Nat) else 0)).sum := by
            exact congrArg List.sum (List.map_congr_left (fun pid _ => heq pid))
        _ = 1 := sum_map_indicator_eq_one hnd hamem
    rw [hsplit, hone, ih (fun q hq => hf q (List.mem_cons_of_mem pre hq))]
    simp

lemma checkpoints_length (games : List Game) :
    (checkpoints games).length = games.length := by
  simp [checkpoints, sortGamesByNumber,
    (List.perm_insertionSort gameNumberLe games).length_eq]

end CatanChambers

namespace CatanChambers

/-! Further helper lemmas about the embedded operations. -/

lemma handleSubmit_none {scores : List PlayerScore} (h : getWinner scores = none)
    (total_games : Nat) (games : List RecordedGame) :
    handleSubmit total_games games scores =
      .rejected "Someone must reach 10 points to win!" := by
  unfold handleSubmit
  rw [h]

lemma handleSubmit_some {scores : List PlayerScore} {w : Nat}
    (h : getWinner scores = some w) (total_games : Nat) (games : List RecordedGame) :
    handleSubmit total_games games scores =
      if total_games ≤ games.length then
        .rejected "Tournament is complete! Create a new tournament to continue."
      else
        .accepted (games ++ [{ winner_id := w, scores := scores }]) := by
  unfold handleSubmit
  rw [h]

lemma calculateLoseChance_terminal (total_games gamesPlayed numPlayers : Nat)
    (myPoints lastPts : Int) (rank : Nat)
    (hgp : gamesPlayed ≠ 0) (hnp : numPlayers ≠ 0) (htg : total_games ≠ 0)
    (hfull : total_games ≤ gamesPlayed) :
    calculateLoseChance total_games gamesPlayed numPlayers myPoints lastPts rank =
      if rank = numPlayers then 100 else 0 := by
  have hT : (if total_games = 0 then 20 else total_games) = total_games := if_neg htg
  simp only [calculateLoseChance, hT]
  rw [if_neg (show ¬(gamesPlayed = 0 ∨ numPlayers = 0) by omega),
    if_pos (show (total_games : Int) - (gamesPlayed : Int) ≤ 0 by omega)]

lemma argmaxTop_some (cum : Nat → Int) (players : List Nat) (hne : players ≠ []) :
    ∃ a, a ∈ players ∧ argmaxTop cum players = some a := by
  cases players with
  | nil => exact absurd rfl hne
  | cons p rest =>
    refine ⟨rest.foldl (fun prev cur => if cum prev < cum cur then cur else prev) p, ?_, rfl⟩
    rcases foldl_pick_mem (fun prev cur => if cum prev < cum cur then cur else prev)
        (fun a b => by
          by_cases h : cum a < cum b
          · exact Or.inr (if_pos h)
          · exact Or.inl (if_neg h)) rest p with h | h
    · rw [h]; exact List.mem_cons_self p rest
    · exact List.mem_cons_of_mem p h

lemma argminBottom_some (cum : Nat → Int) (players : List Nat) (hne : players ≠ []) :
    ∃ a, a ∈ players ∧ argminBottom cum players = some a := by
  cases players with
  | nil => exact absurd rfl hne
  | cons p rest =>
    refine ⟨rest.foldl (fun prev cur => if cum cur < cum prev then cur else prev) p, ?_, rfl⟩
    rcases foldl_pick_mem (fun prev cur => if cum cur < cum prev then cur else prev)
        (fun a b => by
          by_cases h : cum b < cum a
          · exact Or.inr (if_pos h)
          · exact Or.inl (if_neg h)) rest p with h | h
    · rw [h]; exact List.mem_cons_self p rest
    · exact List.mem_cons_of_mem p h

/-! The claims. -/

/-- Claim C1: the spec requires that inserting a game's score rows and then
deleting them returns the standings to the prior state exactly
(full-recompute parity). The delete branch of the trigger restores
`total_games`, `total_points` and the two achievement counters, but it
never decrements `wins` (its `v_winner_id` is never assigned on DELETE, so
the winner CASE cannot fire) and never touches `win_streak` and
`best_win_streak`: starting from the zero standing, inserting and then
deleting a single winning score row leaves `wins = 1`, `win_streak = 1` and
`best_win_streak = 1`, so the round trip is not the identity. -/
theorem c1_insert_delete_not_inverse :
    statsOnDelete c1Row (statsOnInsert 1 c1Row zeroStats) ≠ zeroStats ∧
    (statsOnDelete c1Row (statsOnInsert 1 c1Row zeroStats)).wins = 1 ∧
    (statsOnDelete c1Row (statsOnInsert 1 c1Row zeroStats)).win_streak = 1 ∧
    (statsOnDelete c1Row (statsOnInsert 1 c1Row zeroStats)).best_win_streak = 1 ∧
    (statsOnDelete c1Row (statsOnInsert 1 c1Row zeroStats)).total_games = 0 ∧
    (statsOnDelete c1Row (statsOnInsert 1 c1Row zeroStats)).total_points = 0 := by
  decide

/-- Claim C2 (counterexample): with two submitted scores reaching the
10-point threshold (10 and 11 points), the submission is not rejected: it is
accepted, and the recorded winner is the first player in score order (the
one with 10 points), not the unique maximum. -/
theorem c2_multiple_winners_accepted :
    c2Scores.countP (fun s => decide ((10 : Int) ≤ s.points)) = 2 ∧
    getWinner c2Scores = some 1 ∧
    handleSubmit 20 [] c2Scores = .accepted [⟨1, c2Scores⟩] := by
  decide

/-- Claim C2 (amended): when capacity remains, a submission is rejected with
the no-winner error precisely when no score reaches 10 points; otherwise the
game is accepted and the recorded winner is the first score in submission
order with at least 10 points (no uniqueness or maximality check). -/
theorem c2_first_threshold_wins (total_games : Nat) (games : List RecordedGame)
    (scores : List PlayerScore) (hcap : games.length < total_games) :
    ((∀ s ∈ scores, s.points < 10) →
        handleSubmit total_games games scores =
          .rejected "Someone must reach 10 points to win!") ∧
    (∀ s, scores.find? (fun t => decide ((10 : Int) ≤ t.points)) = some s →
        handleSubmit total_games games scores =
          .accepted (games ++ [{ winner_id := s.playerId, scores := scores }])) := by
  constructor
  · intro hbelow
    have hfind : scores.find? (fun t => decide ((10 : Int) ≤ t.points)) = none := by
      apply List.find?_eq_none.mpr
      intro x hx
      have := hbelow x hx
      simp only [decide_eq_true_eq]
      omega
    have hw : getWinner scores = none := by
      unfold getWinner
      rw [hfind]
      rfl
    exact handleSubmit_none hw total_games games
  · intro s hs
    have hw : getWinner scores = some s.playerId := by
      unfold getWinner
      rw [hs]
      rfl
    rw [handleSubmit_some hw, if_neg (by omega : ¬ total_games ≤ games.length)]

/-- Witness for `c2_first_threshold_wins` at a concrete submission. -/
theorem c2_first_threshold_wins_witness :
    ([] : List RecordedGame).length < 20 ∧
    handleSubmit 20 [] c2Scores = .accepted ([] ++ [⟨1, c2Scores⟩]) :=
  ⟨by decide,
    (c2_first_threshold_wins 20 [] c2Scores (by decide)).2 ⟨1, 10, false, false⟩ (by decide)⟩

/-- Claim C3 (counterexample): the estimator is not clamped to [5, 90] on
every input: in the terminal branch (games played at least the target) the
last-ranked player gets exactly 100, which exceeds 90. -/
theorem c3_terminal_escapes_clamp :
    calculateLoseChance 20 20 4 0 0 4 = 100 ∧
    ¬ calculateLoseChance 20 20 4 0 0 4 ≤ 90 := by
  norm_num [calculateLoseChance]

/-- Claim C3 (amended): on the main heuristic branch — at least one game
played, at least one player, and games played strictly below the configured
target (with 0 treated as the default 20) — the estimator's result is an
integer clamped to [5, 90]. The zero-games branch returns
`round(100 / player_count)` and the terminal branch returns 100 or 0, which
can lie outside that interval. -/
theorem c3_midgame_clamped (total_games gamesPlayed numPlayers : Nat)
    (myPoints lastPts : Int) (rank : Nat)
    (hgp : gamesPlayed ≠ 0) (hnp : numPlayers ≠ 0)
    (hlt : gamesPlayed < if total_games = 0 then 20 else total_games) :
    5 ≤ calculateLoseChance total_games gamesPlayed numPlayers myPoints lastPts rank ∧
    calculateLoseChance total_games gamesPlayed numPlayers myPoints lastPts rank ≤ 90 := by
  have hrem : ¬(((if total_games = 0 then 20 else total_games : Nat) : Int) -
      (gamesPlayed : Int) ≤ 0) := by
    rcases eq_or_ne total_games 0 with h0 | h0
    · subst h0
      simp only [if_pos rfl] at hlt ⊢
      omega
    · rw [if_neg h0] at hlt ⊢
      omega
  simp only [calculateLoseChance]
  rw [if_neg (show ¬(gamesPlayed = 0 ∨ numPlayers = 0) by omega), if_neg hrem]
  exact jround_clamp_bounds _

/-- Witness for `c3_midgame_clamped` at the mid-tournament scenario input. -/
theorem c3_midgame_clamped_witness :
    (5 : Nat) ≠ 0 ∧ (4 : Nat) ≠ 0 ∧ (5 < if (20 : Nat) = 0 then 20 else 20) ∧
    (5 ≤ calculateLoseChance 20 5 4 10 10 4 ∧ calculateLoseChance 20 5 4 10 10 4 ≤ 90) :=
  ⟨by decide, by decide, by decide,
    c3_midgame_clamped 20 5 4 10 10 4 (by decide) (by decide) (by decide)⟩

/-- Claim C4: when the target is reached, the estimator returns exactly 100
for the player ranked last and 0 for everyone else, and the last-sorted
player is one with the lowest total points, ties broken by fewer wins (the
comparator sorts by points descending then wins descending). -/
theorem c4_terminal_last_place (total_games gamesPlayed : Nat)
    (players : List RankedPlayer)
    (hgp : gamesPlayed ≠ 0) (htg : total_games ≠ 0) (hfull : total_games ≤ gamesPlayed) :
    ∀ lp, (sortedStandings players).getLast? = some lp →
      (∀ i : Fin (sortedStandings players).length,
          calculateLoseChance total_games gamesPlayed players.length
              ((sortedStandings players).get i).total_points (lastPlacePoints players)
              (i.1 + 1) =
            if i.1 + 1 = players.length then 100 else 0) ∧
      (∀ p ∈ players, lp.total_points < p.total_points ∨
        (lp.total_points = p.total_points ∧ lp.wins ≤ p.wins)) := by
  intro lp hlp
  have hnonempty : sortedStandings players ≠ [] := by
    intro hcon
    rw [hcon] at hlp
    simp at hlp
  have hlen : (sortedStandings players).length = players.length :=
    (List.perm_insertionSort standingsLe players).length_eq
  have hnp : players.length ≠ 0 := by
    intro h0
    exact hnonempty (List.length_eq_zero.mp (by omega))
  constructor
  · intro i
    exact calculateLoseChance_terminal total_games gamesPlayed players.length _ _ _
      hgp hnp htg hfull
  · intro p hp
    have hpw : (sortedStandings players).Pairwise standingsLe :=
      List.sorted_insertionSort standingsLe players
    have hmem : p ∈ sortedStandings players :=
      ((List.perm_insertionSort standingsLe players).mem_iff).mpr hp
    rcases pairwise_getLast hpw hlp p hmem with rfl | hR
    · right
      exact ⟨rfl, le_refl _⟩
    · exact hR

/-- Witness for `c4_terminal_last_place` on a finished four-player season. -/
theorem c4_terminal_last_place_witness :
    (sortedStandings c4Players).getLast? = some ⟨4, 10, 0⟩ ∧
    ((∀ i : Fin (sortedStandings c4Players).length,
        calculateLoseChance 20 20 c4Players.length
            ((sortedStandings c4Players).get i).total_points (lastPlacePoints c4Players)
            (i.1 + 1) =
          if i.1 + 1 = c4Players.length then 100 else 0) ∧
      (∀ p ∈ c4Players, (⟨4, 10, 0⟩ : RankedPlayer).total_points < p.total_points ∨
        ((⟨4, 10, 0⟩ : RankedPlayer).total_points = p.total_points ∧
          (⟨4, 10, 0⟩ : RankedPlayer).wins ≤ p.wins))) :=
  ⟨by decide,
    c4_terminal_last_place 20 20 c4Players (by decide) (by decide) (by decide)
      ⟨4, 10, 0⟩ (by decide)⟩

/-- Claim C5: in the concrete scenario (4 players, 20-game target, 5 games
played, last-place player with 10 points equal to the minimum, rank 4) the
estimator returns exactly 43. -/
theorem c5_scenario_returns_43 : calculateLoseChance 20 5 4 10 10 4 = 43 := by
  norm_num [calculateLoseChance, jround]

/-- Claim C6: replaying through the insert branch of the stats trigger, the
current win streak always equals the length of the consecutive run of wins
ending at the most recent game (reset by any non-win); in the concrete
7-game season with wins at games 3, 4, 5 and 7 the final `win_streak` is 1
and `best_win_streak` is 3. -/
theorem c6_win_streak_replay :
    (∀ history : List (Nat × GameScore),
        (replayStats history).win_streak = (trailingWinStreak (wonFlags history) : Int)) ∧
    (replayStats c6History).win_streak = 1 ∧
    (replayStats c6History).best_win_streak = 3 :=
  ⟨replayStats_win_streak, by decide, by decide⟩

/-- Claim C7: a submission against a tournament that already holds at least
its configured number of games is rejected with an error (nothing is
inserted), and any accepted submission leaves the recorded game count at
most the configured target. -/
theorem c7_capacity_invariant (total_games : Nat) (games : List RecordedGame)
    (scores : List PlayerScore) :
    (total_games ≤ games.length →
        ∃ msg, handleSubmit total_games games scores = .rejected msg) ∧
    (∀ games2, handleSubmit total_games games scores = .accepted games2 →
        games2.length ≤ total_games) := by
  constructor
  · intro hfull
    cases hw : getWinner scores with
    | none => exact ⟨_, handleSubmit_none hw total_games games⟩
    | some w =>
      refine ⟨"Tournament is complete! Create a new tournament to continue.", ?_⟩
      rw [handleSubmit_some hw, if_pos hfull]
  · intro games2 hacc
    cases hw : getWinner scores with
    | none =>
      rw [handleSubmit_none hw total_games games] at hacc
      exact SubmitResult.noConfusion hacc
    | some w =>
      rw [handleSubmit_some hw] at hacc
      by_cases hc : total_games ≤ games.length
      · rw [if_pos hc] at hacc
        exact SubmitResult.noConfusion hacc
      · rw [if_neg hc] at hacc
        cases hacc
        rw [List.length_append]
        simp
        omega

/-- Witness for `c7_capacity_invariant`: a full two-game tournament rejects a
further valid submission. -/
theorem c7_capacity_invariant_witness :
    (2 : Nat) ≤ c7Games.length ∧
    (∃ msg, handleSubmit 2 c7Games c7Scores = .rejected msg) :=
  ⟨by decide, (c7_capacity_invariant 2 c7Games c7Scores).1 (by decide)⟩

/-- Claim C8: when the previous season has fewer than `N` games recorded (at
least one, with all its game numbers at most `N`, as sequential numbering
gives), the comparison is still computed — no error — and each player's
previous-season total equals the sum over all recorded previous-season games
with game number at most `N`. -/
theorem c8_short_prev_season (N : Nat) (prevGames : List Game) (scores : List GameScore)
    (players : List Nat) (currentPoints : Nat → Int)
    (hne : prevGames ≠ []) (hshort : prevGames.length < N)
    (hnum : ∀ g ∈ prevGames, g.game_number ≤ N) :
    (fetchComparisonData N prevGames scores players currentPoints).isSome = true ∧
    ∀ pid, prevPointsByPlayer N prevGames scores pid =
      specPrevPoints N prevGames scores pid := by
  have hperm : (sortGamesByNumber prevGames).Perm prevGames :=
    List.perm_insertionSort gameNumberLe prevGames
  have hlen : (sortGamesByNumber prevGames).length = prevGames.length := hperm.length_eq
  have htake : (sortGamesByNumber prevGames).take N = sortGamesByNumber prevGames :=
    List.take_of_length_le (by omega)
  have hids : prevGameIds N prevGames = (sortGamesByNumber prevGames).map (fun g => g.id) := by
    simp only [prevGameIds]
    rw [htake]
  have hfil : prevGames.filter (fun g => decide (g.game_number ≤ N)) = prevGames := by
    apply List.filter_eq_self.mpr
    intro g hg
    exact decide_eq_true (hnum g hg)
  have hmemiff : ∀ x : Nat, x ∈ prevGameIds N prevGames ↔
      x ∈ (prevGames.filter (fun g => decide (g.game_number ≤ N))).map (fun g => g.id) := by
    intro x
    rw [hids, hfil]
    exact (hperm.map (fun g => g.id)).mem_iff
  constructor
  · have hN : ¬ N = 0 := by
      have := List.length_pos.mpr hne
      omega
    have hidsne : ¬ prevGameIds N prevGames = [] := by
      rw [hids]
      intro hcon
      have hl := congrArg List.length hcon
      rw [List.length_map, hlen, List.length_nil] at hl
      exact hne (List.length_eq_zero.mp hl)
    rw [fetchComparisonData, if_neg hN, if_neg hidsne]
    rfl
  · intro pid
    have hfe : scores.filter (fun s => decide (s.game_id ∈ prevGameIds N prevGames)) =
        scores.filter (fun s => decide (s.game_id ∈
          (prevGames.filter (fun g => decide (g.game_number ≤ N))).map (fun g => g.id))) := by
      apply List.filter_congr
      intro s _
      exact decide_eq_decide.mpr (hmemiff s.game_id)
    simp only [prevPointsByPlayer, specPrevPoints]
    rw [hfe]

/-- Witness for `c8_short_prev_season`: a six-game previous season compared
at cutoff 10. -/
theorem c8_short_prev_season_witness :
    c8Games ≠ [] ∧ c8Games.length < 10 ∧ (∀ g ∈ c8Games, g.game_number ≤ 10) ∧
    ((fetchComparisonData 10 c8Games c8Scores [1] (fun _ => 30)).isSome = true ∧
      ∀ pid, prevPointsByPlayer 10 c8Games c8Scores pid =
        specPrevPoints 10 c8Games c8Scores pid) :=
  ⟨by decide, by decide, by decide,
    c8_short_prev_season 10 c8Games c8Scores [1] (fun _ => 30) (by decide) (by decide)
      (by decide)⟩

/-- Claim C9: on a nonempty roster the positional reduce always picks exactly
one player at the top and one at the bottom of a checkpoint, and it equals
the explicit deterministic rule "first player in roster order attaining the
extreme" — so identical inputs always resolve ties to the same player. -/
theorem c9_tiebreak_deterministic (cum : Nat → Int) (players : List Nat)
    (hne : players ≠ []) :
    (∃ p, argmaxTop cum players = some p) ∧
    (∃ p, argminBottom cum players = some p) ∧
    argmaxTop cum players = firstMax cum players ∧
    argminBottom cum players = firstMin cum players := by
  refine ⟨?_, ?_, argmaxTop_eq_firstMax cum players, argminBottom_eq_firstMin cum players⟩
  · obtain ⟨a, _, ha⟩ := argmaxTop_some cum players hne
    exact ⟨a, ha⟩
  · obtain ⟨a, _, ha⟩ := argminBottom_some cum players hne
    exact ⟨a, ha⟩

/-- Witness for `c9_tiebreak_deterministic` on a two-player tie. -/
theorem c9_tiebreak_deterministic_witness :
    ([1, 2] : List Nat) ≠ [] ∧
    ((∃ p, argmaxTop (fun _ => (5 : Int)) [1, 2] = some p) ∧
      (∃ p, argminBottom (fun _ => (5 : Int)) [1, 2] = some p) ∧
      argmaxTop (fun _ => (5 : Int)) [1, 2] = firstMax (fun _ => (5 : Int)) [1, 2] ∧
      argminBottom (fun _ => (5 : Int)) [1, 2] = firstMin (fun _ => (5 : Int)) [1, 2]) :=
  ⟨by decide, c9_tiebreak_deterministic (fun _ => (5 : Int)) [1, 2] (by decide)⟩

/-- Claim C10: with a nonempty duplicate-free roster, every checkpoint
contributes exactly one top and one bottom holder, so the per-player
games-at-top counts sum to the number of games, and likewise for
games-at-bottom. -/
theorem c10_position_conservation (players : List Nat) (games : List Game)
    (scores : List GameScore) (hne : players ≠ []) (hnd : players.Nodup) :
    ((gamesAtTop players games scores).map (fun x => x.2)).sum = games.length ∧
    ((gamesAtBottom players games scores).map (fun x => x.2)).sum = games.length := by
  constructor
  · have hmap : (gamesAtTop players games scores).map (fun x => x.2) =
        players.map (fun pid => (checkpoints games).countP
          (fun pre => decide (argmaxTop (cumulativePoints scores pre) players = some pid))) := by
      simp [gamesAtTop, List.map_map, Function.comp_def]
    rw [hmap]
    exact (sum_countP_choice players hnd (checkpoints games)
      (fun pre => argmaxTop (cumulativePoints scores pre) players)
      (fun pre _ => argmaxTop_some (cumulativePoints scores pre) players hne)).trans
      (checkpoints_length games)
  · have hmap : (gamesAtBottom players games scores).map (fun x => x.2) =
        players.map (fun pid => (checkpoints games).countP
          (fun pre => decide (argminBottom (cumulativePoints scores pre) players = some pid))) := by
      simp [gamesAtBottom, List.map_map, Function.comp_def]
    rw [hmap]
    exact (sum_countP_choice players hnd (checkpoints games)
      (fun pre => argminBottom (cumulativePoints scores pre) players)
      (fun pre _ => argminBottom_some (cumulativePoints scores pre) players hne)).trans
      (checkpoints_length games)

/-- Witness for `c10_position_conservation` on a two-player, two-game season. -/
theorem c10_position_conservation_witness :
    c10Players ≠ [] ∧ c10Players.Nodup ∧
    (((gamesAtTop c10Players c10Games c10Scores).map (fun x => x.2)).sum =
        c10Games.length ∧
      ((gamesAtBottom c10Players c10Games c10Scores).map (fun x => x.2)).sum =
        c10Games.length) :=
  ⟨by decide, by decide,
    c10_position_conservation c10Players c10Games c10Scores (by decide) (by decide)⟩

end CatanChambers
